import Mathlib

/-!
Verification of the "Guess the Animal" game (`src/animal.py`).

The program keeps a mutable binary decision tree whose nodes are Python
dictionaries: question nodes `{'Q': q, 'Y': yes_child, 'N': no_child}` and
guess nodes `{'A': animal}`.  Standard input is modelled as the list of lines
still to be read; every function that reads input threads that list.  A Python
exception (IndexError on `s[0]` / `s[-1]`, KeyError on a missing dictionary
key, AttributeError on `None.get`) is modelled by an `Option`-style error
result, since the source installs no exception handler anywhere.
-/

namespace Animal

/-- Standard input: the list of lines not yet consumed (newlines stripped). -/
abbrev Input := List String

/-- `sys.stdin.readline()`: the next line, or `""` at end of file. -/
def readline : Input → String × Input
  | [] => ("", [])
  | l :: ls => (l, ls)

/-- The ASCII whitespace characters removed by Python `str.strip()`. -/
def isPySpace (c : Char) : Bool :=
  c == ' ' || c == '\t' || c == '\n' || c == '\r' || c == '\x0b' || c == '\x0c'

/-- Python `str.strip()` (ASCII whitespace). -/
def pyStrip (s : String) : String :=
  ⟨((s.data.dropWhile isPySpace).reverse.dropWhile isPySpace).reverse⟩

/-- Python `str.lower()` (ASCII letters). -/
def pyLower (s : String) : String :=
  ⟨s.data.map Char.toLower⟩

/-- Python `str.capitalize()`: first character uppercased, all following
characters lowercased (ASCII letters). -/
def pyCapitalize (s : String) : String :=
  match s.data with
  | [] => ""
  | c :: cs => ⟨c.toUpper :: cs.map Char.toLower⟩

/-- A Python value as the game uses them: `None`, or a node dictionary.
A node dictionary may hold a question text under key `'Q'` (`q`), an animal
name under key `'A'` (`a`), and child values under keys `'Y'` and `'N'`
(`y`, `n`).  A missing string key is `none`; a child key that is missing or
holds `None` is `pnone`. -/
inductive Val where
  | pnone : Val
  | node (q a : Option String) (y n : Val) : Val
deriving DecidableEq, Repr

/-- Size measure used for termination of the mutually recursive traversal. -/
def Val.size : Val → Nat
  | .pnone => 0
  | .node _ _ y n => 1 + y.size + n.size

/-- `d['A']`: `none` models the exception raised when `d` is `None` or the
key is absent. -/
def Val.getA : Val → Option String
  | .pnone => none
  | .node _ a _ _ => a

/-- `d['Y']` on a node dictionary. -/
def Val.getY : Val → Option Val
  | .pnone => none
  | .node _ _ y _ => some y

/-- `d['N']` on a node dictionary. -/
def Val.getN : Val → Option Val
  | .pnone => none
  | .node _ _ _ n => some n

/-- `d['Y'] = v`: `none` models the exception raised when `d` is `None`. -/
def Val.setY : Val → Val → Option Val
  | .pnone, _ => none
  | .node q a _ n, v => some (.node q a v n)

/-- `d['N'] = v`: `none` models the exception raised when `d` is `None`. -/
def Val.setN : Val → Val → Option Val
  | .pnone, _ => none
  | .node q a y _, v => some (.node q a y v)

/-- Truthiness of `node.get('Q')` for a node dictionary: a missing key yields
`None` (falsy) and an empty question string is falsy. -/
def truthy : Option String → Bool
  | none => false
  | some s => !(s == "")

/-- `{"A": "a fish"}` -/
def g_node_fish : Val := .node none (some "a fish") .pnone .pnone

/-- `{"A": "a bird"}` -/
def g_node_bird : Val := .node none (some "a bird") .pnone .pnone

/-- `{"Q": "Does it swim?", "Y": g_node_fish, "N": g_node_bird}` -/
def q_node_root : Val :=
  .node (some "Does it swim?") none g_node_fish g_node_bird

/-- `sys.stdin.readline().strip().lower()` -/
def get_one_word_answer (inp : Input) : String × Input :=
  let (l, inp') := readline inp
  (pyLower (pyStrip l), inp')

/-- `answer_str[0] == 'y'`; `none` models the IndexError on an empty string. -/
def is_answer_affirmative (answer_str : String) : Option Bool :=
  match answer_str.data with
  | [] => none
  | c :: _ => some (c == 'y')

/-- `answer_str[0] == 't'`; `none` models the IndexError on an empty string. -/
def is_answer_tree (answer_str : String) : Option Bool :=
  match answer_str.data with
  | [] => none
  | c :: _ => some (c == 't')

/-- `sys.stdin.readline().strip()` -/
def get_answer (inp : Input) : String × Input :=
  let (l, inp') := readline inp
  (pyStrip l, inp')

/-- `get_answer().lower()` -/
def get_animal (inp : Input) : String × Input :=
  let (a, inp') := get_answer inp
  (pyLower a, inp')

/-- `get_answer().lower().capitalize()`, then append `'?'` when the last
character is not already `'?'`; `none` models the IndexError of `q_str[-1]`
on an empty string. -/
def get_question (inp : Input) : Option String × Input :=
  let (a, inp') := get_answer inp
  let q_str := pyCapitalize (pyLower a)
  match q_str.data.getLast? with
  | none => (none, inp')
  | some c => if c ≠ '?' then (some (q_str ++ "?"), inp') else (some q_str, inp')

/-- Print `For {new_a_str}, what is the answer?`, then read a yes/no answer.
The third component is the list of printed lines. -/
def get_q_answer (new_a_str : String) (inp : Input) :
    Option Bool × Input × List String :=
  let out := ["For " ++ new_a_str ++ ", what is the answer?"]
  let (s, inp') := get_one_word_answer inp
  (is_answer_affirmative s, inp', out)

/-- `make_g_node`: print the prompt and build `{'A': get_animal()}`. -/
def make_g_node (inp : Input) : Val × Input × List String :=
  let out := ["What animal were you thinking of? "]
  let (a, inp') := get_animal inp
  (.node none (some a) .pnone .pnone, inp', out)

/-- The guess node `make_g_node` builds from input `inp`: a dictionary whose
`'A'` entry is the first input line, stripped and lowercased. -/
def newGuess (inp : Input) : Val :=
  .node none (some (pyLower (pyStrip (readline inp).1))) .pnone .pnone

/-- `make_q_node_with_q_only`: print the prompt and build
`{'Q': get_question(), 'Y': None, 'N': None}`. -/
def make_q_node_with_q_only (correct_a_str incorrect_a_str : String)
    (inp : Input) : Option Val × Input × List String :=
  let out := ["Please type a yes-or-no question that would distinguish "
      ++ correct_a_str ++ " from " ++ incorrect_a_str ++ ":"]
  match get_question inp with
  | (none, inp') => (none, inp', out)
  | (some q, inp') => (some (.node (some q) none .pnone .pnone), inp', out)

/-- `attach_g_nodes`: ask `get_q_answer(correct_g_node['A'])` and set
`new_q_node['Y']` and `new_q_node['N']` accordingly.  The Python function
mutates `new_q_node` in place; here the completed node is returned. -/
def attach_g_nodes (new_q_node incorrect_g_node correct_g_node : Val)
    (inp : Input) : Option Val × Input × List String :=
  match correct_g_node.getA with
  | none => (none, inp, [])
  | some a =>
    match get_q_answer a inp with
    | (none, inp', out) => (none, inp', out)
    | (some true, inp', out) =>
      match new_q_node.setY correct_g_node with
      | none => (none, inp', out)
      | some v1 =>
        match v1.setN incorrect_g_node with
        | none => (none, inp', out)
        | some v2 => (some v2, inp', out)
    | (some false, inp', out) =>
      match new_q_node.setY incorrect_g_node with
      | none => (none, inp', out)
      | some v1 =>
        match v1.setN correct_g_node with
        | none => (none, inp', out)
        | some v2 => (some v2, inp', out)

/-- `make_new_q_node`: build the new guess node, the new question node, and
complete it with `attach_g_nodes`.  `g_node['A']` is read for the prompt of
`make_q_node_with_q_only`, so a guess node without an `'A'` key is an error. -/
def make_new_q_node (g_node : Val) (inp : Input) :
    Option Val × Input × List String :=
  let (new_g_node, inp1, out1) := make_g_node inp
  match new_g_node.getA, g_node.getA with
  | some ca, some ia =>
    match make_q_node_with_q_only ca ia inp1 with
    | (none, inp2, out2) => (none, inp2, out1 ++ out2)
    | (some new_q_node, inp2, out2) =>
      match attach_g_nodes new_q_node g_node new_g_node inp2 with
      | (none, inp3, out3) => (none, inp3, out1 ++ out2 ++ out3)
      | (some done, inp3, out3) => (some done, inp3, out1 ++ out2 ++ out3)
  | _, _ => (none, inp1, out1)

/-- Result of a (possibly failing) interactive traversal step: the updated
state of the question node that was passed in, the remaining input, and the
printed lines.  `err` is an uncaught Python exception; the carried node is its
state at the moment the exception is raised. -/
inductive PlayRes where
  | ok (q_node : Val) (rest : Input) (out : List String)
  | err (q_node : Val) (rest : Input) (out : List String)
deriving DecidableEq, Repr

/-- Prefix already-printed lines onto the output of a traversal result. -/
def PlayRes.prependOut (o : List String) : PlayRes → PlayRes
  | .ok v r out => .ok v r (o ++ out)
  | .err v r out => .err v r (o ++ out)

/-- `insert_new_yes_branch_q_node`: `q_node['Y'] = make_new_q_node(q_node, g_node)`. -/
def insert_new_yes_branch_q_node (q_node g_node : Val) (inp : Input) : PlayRes :=
  match make_new_q_node g_node inp with
  | (none, inp', out) => .err q_node inp' out
  | (some new_q_node, inp', out) =>
    match q_node.setY new_q_node with
    | none => .err q_node inp' out
    | some q' => .ok q' inp' out

/-- `insert_new_no_branch_q_node`: `q_node['N'] = make_new_q_node(q_node, g_node)`. -/
def insert_new_no_branch_q_node (q_node g_node : Val) (inp : Input) : PlayRes :=
  match make_new_q_node g_node inp with
  | (none, inp', out) => .err q_node inp' out
  | (some new_q_node, inp', out) =>
    match q_node.setN new_q_node with
    | none => .err q_node inp' out
    | some q' => .ok q' inp' out

/-- `play_g_node`: offer the guess; on "no" grow the tree on the branch of
`q_node` that was followed to reach `g_node`. -/
def play_g_node (q_node g_node : Val) (followed_yes_path : Bool)
    (inp : Input) : PlayRes :=
  match g_node.getA with
  | none => .err q_node inp []
  | some a =>
    let out0 := ["Is it " ++ a ++ "?"]
    let (s, inp') := get_one_word_answer inp
    match is_answer_affirmative s with
    | none => .err q_node inp' out0
    | some true => .ok q_node inp' (out0 ++ ["Great! Try another animal!"])
    | some false =>
      if followed_yes_path then
        (insert_new_yes_branch_q_node q_node g_node inp').prependOut out0
      else
        (insert_new_no_branch_q_node q_node g_node inp').prependOut out0

/-- In Python the yes/no slot of `q_node` aliases `node`, so an in-place
mutation of `node` is visible through `q_node`; in this pure rendering the
slot selected by `followed_yes_path` is re-pointed at the updated child.
At both call sites (`play_q_node`) `node` is exactly that slot's value. -/
def write_back (q_node node' : Val) (followed_yes_path : Bool) : Val :=
  match q_node with
  | .pnone => .pnone
  | .node q a y n =>
    if followed_yes_path then .node q a node' n else .node q a y node'

mutual

/-- `play_node`: dispatch on `node.get('Q')` truthiness between recursing into
a question node and handling a guess node. -/
def play_node (q_node node : Val) (followed_yes_path : Bool)
    (inp : Input) : PlayRes :=
  match node with
  | .pnone => .err q_node inp []
  | .node q a y n =>
    if truthy q then
      match play_q_node (.node q a y n) inp with
      | .ok node' inp' out => .ok (write_back q_node node' followed_yes_path) inp' out
      | .err node' inp' out => .err (write_back q_node node' followed_yes_path) inp' out
    else
      play_g_node q_node (.node q a y n) followed_yes_path inp
termination_by (node.size, 1)
decreasing_by
  simp only [Val.size]
  exact Prod.Lex.right _ Nat.zero_lt_one

/-- `play_q_node`: print the question, read the answer, and follow the
"yes" or "no" branch. -/
def play_q_node (q_node : Val) (inp : Input) : PlayRes :=
  match q_node with
  | .pnone => .err .pnone inp []
  | .node q a y n =>
    match q with
    | none => .err (.node q a y n) inp []
    | some qs =>
      let out0 := [qs]
      let (s, inp1) := get_one_word_answer inp
      match is_answer_affirmative s with
      | none => .err (.node (some qs) a y n) inp1 out0
      | some true =>
        (play_node (.node (some qs) a y n) y true inp1).prependOut out0
      | some false =>
        (play_node (.node (some qs) a y n) n false inp1).prependOut out0
termination_by (q_node.size, 0)
decreasing_by
  all_goals simp only [Val.size]
  all_goals exact Prod.Lex.left _ _ (by omega)

end

/-- `play_game(root_q_node)` -/
def play_game (root_q_node : Val) (inp : Input) : PlayRes :=
  play_q_node root_q_node inp

/-- One round of the main loop's "yes" branch: the tree after `play_game`,
whether the round completed or died on an exception. -/
def run_round (t : Val) (inp : Input) : Val :=
  match play_game t inp with
  | .ok t' _ _ => t'
  | .err t' _ _ => t'

/-- Any number of game rounds, each with its own input script. -/
def run_rounds (t : Val) (scripts : List Input) : Val :=
  scripts.foldl run_round t

/-- Python string repetition `s * n`. -/
def pyRepeat (s : String) (n : Nat) : String :=
  ⟨(List.replicate n s.data).flatten⟩

/-- `get_indent_str`: `" " * level * 3` (left associated). -/
def get_indent_str (level : Nat) : String :=
  pyRepeat (pyRepeat " " level) 3

/-- `print_game_tree`: the list of lines printed, or `none` when the walk
runs into a `None` child (`None.get('Q')` raises) or a node dictionary with
neither a truthy `'Q'` key nor an `'A'` key. -/
def print_game_tree : Val → Nat → Option (List String)
  | .pnone, _ => none
  | .node q a y n, level =>
    if h : truthy q then
      match q with
      | some qs =>
        match print_game_tree y (level + 1), print_game_tree n (level + 1) with
        | some ys, some ns =>
          some ([get_indent_str level ++ "Question: " ++ qs ++ " -> yes:"]
            ++ ys
            ++ [get_indent_str level ++ "Question: " ++ qs ++ " -> no:"]
            ++ ns)
        | _, _ => none
      | none => by simp [truthy] at h
    else
      match a with
      | none => none
      | some animal => some [get_indent_str level ++ "Guess: " ++ animal]

/-- The leaves the traversals can reach: a node dictionary whose `'Q'` entry
is falsy is a leaf; the leaves of a question node are those of its two
children. -/
def Val.leaves : Val → List Val
  | .pnone => []
  | .node q a y n =>
    if truthy q then y.leaves ++ n.leaves else [.node q a y n]

/-- A node dictionary that the traversals treat as a guess leaf. -/
def Val.isGuess : Val → Bool
  | .pnone => false
  | .node q _ _ _ => !(truthy q)

/-- The node dictionary's `'Q'` entry is truthy, i.e. the traversals treat it
as a question node. -/
def Val.truthyQ : Val → Bool
  | .pnone => false
  | .node q _ _ _ => truthy q

/-- Both values are node dictionaries with the same `'Q'` and `'A'` entries. -/
def sameTop : Val → Val → Bool
  | .node q a _ _, .node q' a' _ _ => q == q' && a == a'
  | _, _ => false

/-- Every question node reachable from `t` has both of its child slots set
(neither is missing nor `None`). -/
def Val.complete : Val → Bool
  | .pnone => true
  | .node q _ y n =>
    if truthy q then
      !(y == .pnone) && !(n == .pnone) && y.complete && n.complete
    else
      true

/-! ### Helper lemmas -/

theorem string_eq_empty_of_data_nil {s : String} (h : s.data = []) : s = "" := by
  cases s
  simp_all

theorem toLower_isUpper_false (c : Char) : c.toLower.isUpper = false := by
  unfold Char.toLower
  by_cases h : c.toNat ≥ 65 ∧ c.toNat ≤ 90
  · rw [if_pos h]
    have hvalid : (c.toNat + 32).isValidChar := Or.inl (by omega)
    have hv : (Char.ofNat (c.toNat + 32)).toNat = c.toNat + 32 := by
      rw [Char.ofNat, dif_pos hvalid]
      rfl
    have h90 : ¬((Char.ofNat (c.toNat + 32)).val ≤ (90 : UInt32)) := by
      intro hle
      have h1 := @UInt32.toNat_le_of_le _ 90 (by decide) hle
      have hch : (Char.ofNat (c.toNat + 32)).val.toNat = c.toNat + 32 := hv
      omega
    simp [Char.isUpper, h90]
  · rw [if_neg h]
    by_cases h65 : (65 : UInt32) ≤ c.val
    · have h65' := @UInt32.le_toNat_of_le _ 65 (by decide) h65
      by_cases h90 : c.val ≤ (90 : UInt32)
      · have h90' := @UInt32.toNat_le_of_le _ 90 (by decide) h90
        exact absurd ⟨h65', h90'⟩ h
      · simp [Char.isUpper, h90]
    · simp [Char.isUpper, h65]

theorem pyCapitalize_pyLower_data {s : String} {c : Char} {cs : List Char}
    (hd : s.data = c :: cs) :
    (pyCapitalize (pyLower s)).data
      = c.toLower.toUpper :: (cs.map Char.toLower).map Char.toLower := by
  simp only [pyLower, pyCapitalize, hd, List.map_cons]

theorem pyCapitalize_pyLower_ne_nil {s : String} (h : s ≠ "") :
    (pyCapitalize (pyLower s)).data ≠ [] := by
  rcases hd : s.data with _ | ⟨c, cs⟩
  · exact absurd (string_eq_empty_of_data_nil hd) h
  · rw [pyCapitalize_pyLower_data hd]
    simp

/-- On success, `get_question` returns the capitalized lowercased stripped
input line, with `'?'` appended exactly when its last character is not `'?'`,
and consumes one line. -/
theorem get_question_ok {l : String} {ls : Input} {q : String}
    (h : (get_question (l :: ls)).1 = some q) :
    ∃ c cs, (pyStrip l).data = c :: cs ∧
      (get_question (l :: ls)).2 = ls ∧
      ((pyCapitalize (pyLower (pyStrip l))).data.getLast? = some '?' →
        q = pyCapitalize (pyLower (pyStrip l))) ∧
      ((pyCapitalize (pyLower (pyStrip l))).data.getLast? ≠ some '?' →
        q = pyCapitalize (pyLower (pyStrip l)) ++ "?") := by
  have key : get_question (l :: ls)
      = (match (pyCapitalize (pyLower (pyStrip l))).data.getLast? with
         | none => (none, ls)
         | some c => if c ≠ '?'
             then (some (pyCapitalize (pyLower (pyStrip l)) ++ "?"), ls)
             else (some (pyCapitalize (pyLower (pyStrip l))), ls)) := rfl
  rcases hlast : (pyCapitalize (pyLower (pyStrip l))).data.getLast? with _ | c0
  · rw [key] at h
    simp [hlast] at h
  · rcases hd : (pyStrip l).data with _ | ⟨c, cs⟩
    · have hs : pyStrip l = "" := string_eq_empty_of_data_nil hd
      rw [hs] at hlast
      simp [pyCapitalize, pyLower] at hlast
    · refine ⟨c, cs, rfl, ?_, ?_, ?_⟩
      · rw [key]
        simp only [hlast]
        by_cases hq : c0 = '?' <;> simp [hq]
      · intro h1
        have hc0 : c0 = '?' := Option.some.inj h1
        rw [key] at h
        simp [hlast, hc0] at h
        exact h.symm
      · intro h2
        have hc0 : c0 ≠ '?' := fun e => h2 (congrArg some e)
        rw [key] at h
        simp [hlast, hc0] at h
        exact h.symm

theorem string_ne_empty_of_getLast {s : String} {c : Char}
    (h : s.data.getLast? = some c) : s ≠ "" := by
  intro he
  subst he
  exact Option.noConfusion h

/-- On success, `get_question` returns a non-empty string ending in `'?'`
and consumes exactly one input line. -/
theorem get_question_ok' {inp : Input} {q : String} {r : Input}
    (h : get_question inp = (some q, r)) :
    q ≠ "" ∧ q.data.getLast? = some '?' ∧ r = (readline inp).2 := by
  have key : get_question inp
      = (match (pyCapitalize (pyLower (pyStrip (readline inp).1))).data.getLast? with
         | none => (none, (readline inp).2)
         | some c => if c ≠ '?'
             then (some (pyCapitalize (pyLower (pyStrip (readline inp).1)) ++ "?"),
                   (readline inp).2)
             else (some (pyCapitalize (pyLower (pyStrip (readline inp).1))),
                   (readline inp).2)) := rfl
  rw [key] at h
  rcases hlast : (pyCapitalize (pyLower (pyStrip (readline inp).1))).data.getLast?
      with _ | c0
  · simp only [hlast] at h
    simp at h
  · simp only [hlast] at h
    by_cases hq : c0 = '?'
    · rw [if_neg (by simp [hq])] at h
      have h1 : pyCapitalize (pyLower (pyStrip (readline inp).1)) = q :=
        Option.some.inj (congrArg Prod.fst h)
      have h2 : (readline inp).2 = r := congrArg (fun p => p.2) h
      have hlast' : q.data.getLast? = some '?' := by
        rw [← h1, hlast, hq]
      exact ⟨string_ne_empty_of_getLast hlast', hlast', h2.symm⟩
    · rw [if_pos (by simp [hq])] at h
      have h1 : pyCapitalize (pyLower (pyStrip (readline inp).1)) ++ "?" = q :=
        Option.some.inj (congrArg Prod.fst h)
      have h2 : (readline inp).2 = r := congrArg (fun p => p.2) h
      have hlast' : q.data.getLast? = some '?' := by
        rw [← h1, String.data_append]
        exact List.getLast?_concat _
      exact ⟨string_ne_empty_of_getLast hlast', hlast', h2.symm⟩

/-- On success, `make_new_q_node` returns a question node whose question is
non-empty and ends in `'?'`, whose two children are the old guess node and the
newly built guess node — on the sides selected by the live yes/no answer read
as the third input line — and it consumes exactly three input lines. -/
theorem make_new_q_node_ok {g_node : Val} {inp : Input} {res : Val}
    {r : Input} {o : List String}
    (h : make_new_q_node g_node inp = (some res, r, o)) :
    ∃ (qs : String) (b : Bool),
      qs ≠ "" ∧ qs.data.getLast? = some '?' ∧
      is_answer_affirmative
        (pyLower (pyStrip (readline (readline (readline inp).2).2).1)) = some b ∧
      res = (if b
             then Val.node (some qs) none (newGuess inp) g_node
             else Val.node (some qs) none g_node (newGuess inp)) ∧
      r = (readline (readline (readline inp).2).2).2 := by
  simp only [make_new_q_node, make_g_node, get_animal, get_answer] at h
  rcases hA : g_node.getA with _ | ia
  · rw [hA] at h
    simp only [Val.getA] at h
    simp at h
  · rw [hA] at h
    simp only [Val.getA] at h
    rcases hgq : get_question ((readline inp).2) with ⟨oq, i2⟩
    cases oq with
    | none =>
      simp only [make_q_node_with_q_only, hgq] at h
      simp at h
    | some qs =>
      obtain ⟨hne, hlast, hr⟩ := get_question_ok' hgq
      subst hr
      simp only [make_q_node_with_q_only, hgq, attach_g_nodes, Val.getA,
        get_q_answer, get_one_word_answer] at h
      rcases hb : is_answer_affirmative
          (pyLower (pyStrip (readline (readline (readline inp).2).2).1))
          with _ | b
      · rw [hb] at h
        simp at h
      · rw [hb] at h
        cases b
        · simp only [Val.setY, Val.setN, Prod.mk.injEq,
            Option.some.injEq] at h
          exact ⟨qs, false, hne, hlast, rfl, by
            simp [h.1.symm, newGuess], h.2.1.symm⟩
        · simp only [Val.setY, Val.setN, Prod.mk.injEq,
            Option.some.injEq] at h
          exact ⟨qs, true, hne, hlast, rfl, by
            simp [h.1.symm, newGuess], h.2.1.symm⟩

/-! ### C1: growth correctness -/

/-- C1: (i) for any parent question node whose yes-child is
`GuessNode("a fish")`, a miss on that guess with new animal `"a shark"`, new
question `"Does it have fins?"` and live answer `"yes"` replaces the
yes-child by `QuestionNode{question: "Does it have fins?", yes:
GuessNode("a shark"), no: GuessNode("a fish")}`; (ii) in general, whenever
`attach_g_nodes` completes, the branch assignment of the new question node is
exactly the live yes/no answer: the guess the user indicated sits on the
"yes" side iff the answer was affirmative, and the other guess on the other
side. -/
theorem growth_correctness :
    (∀ (qf a : Option String) (n : Val),
      insert_new_yes_branch_q_node (.node qf a g_node_fish n) g_node_fish
          ["a shark", "Does it have fins?", "yes"]
        = .ok (.node qf a
            (.node (some "Does it have fins?") none
              (.node none (some "a shark") .pnone .pnone) g_node_fish)
            n)
          []
          ["What animal were you thinking of? ",
           "Please type a yes-or-no question that would distinguish a shark from a fish:",
           "For a shark, what is the answer?"]) ∧
    (∀ (q : String) (inc cor : Val) (inp : Input) (res : Val)
        (inp' : Input) (o : List String),
      attach_g_nodes (.node (some q) none .pnone .pnone) inc cor inp
          = (some res, inp', o) →
      ∃ b, is_answer_affirmative (get_one_word_answer inp).1 = some b ∧
        res = if b then .node (some q) none cor inc
              else .node (some q) none inc cor) := by
  constructor
  · intro qf a n
    simp [insert_new_yes_branch_q_node, make_new_q_node, make_g_node,
      get_animal, get_answer, readline, make_q_node_with_q_only, get_question,
      attach_g_nodes, get_q_answer, get_one_word_answer, Val.getA, Val.setY,
      Val.setN, g_node_fish, pyStrip, pyLower, pyCapitalize, isPySpace,
      is_answer_affirmative]
  · intro q inc cor inp res inp' o h
    rcases hA : cor.getA with _ | a0
    · simp only [attach_g_nodes, hA] at h
      exact absurd h (by simp)
    · simp only [attach_g_nodes, hA, get_q_answer] at h
      rcases hb : is_answer_affirmative (get_one_word_answer inp).1 with _ | b
      · rw [hb] at h
        simp at h
      · rw [hb] at h
        cases b
        · simp only [Val.setY, Val.setN, Prod.mk.injEq,
            Option.some.injEq] at h
          exact ⟨false, rfl, by simp [h.1.symm]⟩
        · simp only [Val.setY, Val.setN, Prod.mk.injEq,
            Option.some.injEq] at h
          exact ⟨true, rfl, by simp [h.1.symm]⟩

/-- C1 witness: part (ii) applied concretely — distinguishing question
`"Does it have fins?"`, wrong guess `"a fish"`, new guess `"a shark"`, live
answer line `"yes"`. -/
theorem growth_correctness_witness :
    ∃ b, is_answer_affirmative (get_one_word_answer ["yes"]).1 = some b ∧
      (Val.node (some "Does it have fins?") none
          (.node none (some "a shark") .pnone .pnone) g_node_fish)
        = if b then Val.node (some "Does it have fins?") none
              (.node none (some "a shark") .pnone .pnone) g_node_fish
          else Val.node (some "Does it have fins?") none g_node_fish
              (.node none (some "a shark") .pnone .pnone) :=
  growth_correctness.2 "Does it have fins?" g_node_fish
    (.node none (some "a shark") .pnone .pnone) ["yes"]
    (Val.node (some "Does it have fins?") none
      (.node none (some "a shark") .pnone .pnone) g_node_fish)
    [] ["For a shark, what is the answer?"] (by decide)

/-! ### Traversal behaviour: the master lemmas -/

theorem truthyQ_node {q a : Option String} {y n : Val} :
    (Val.node q a y n).truthyQ = truthy q := rfl

theorem truthy_none : truthy none = false := rfl

theorem leaves_truthy {q a : Option String} {y n : Val} (h : truthy q = true) :
    (Val.node q a y n).leaves = y.leaves ++ n.leaves := by
  simp [Val.leaves, h]

theorem leaves_nontruthy {q a : Option String} {y n : Val} (h : truthy q = false) :
    (Val.node q a y n).leaves = [Val.node q a y n] := by
  simp [Val.leaves, h]

theorem complete_truthy {q a : Option String} {y n : Val} (h : truthy q = true) :
    (Val.node q a y n).complete
      = (!(y == Val.pnone) && !(n == Val.pnone) && y.complete && n.complete) := by
  simp [Val.complete, h]

theorem complete_nontruthy {q a : Option String} {y n : Val} (h : truthy q = false) :
    (Val.node q a y n).complete = true := by
  simp [Val.complete, h]

theorem sameTop_node_iff {q a : Option String} {y n : Val} {u : Val} :
    sameTop (.node q a y n) u = true ↔ ∃ y' n', u = .node q a y' n' := by
  cases u with
  | pnone => simp [sameTop]
  | node q' a' y' n' =>
    simp only [sameTop, Bool.and_eq_true, beq_iff_eq]
    constructor
    · rintro ⟨rfl, rfl⟩
      exact ⟨y', n', rfl⟩
    · rintro ⟨y2, n2, he⟩
      injection he with h1 h2 h3 h4
      exact ⟨h1.symm, h2.symm⟩

theorem sameTop_refl_node {q a : Option String} {y n : Val} :
    sameTop (.node q a y n) (.node q a y n) = true := by
  simp [sameTop]

theorem make_new_q_node_good {cq ca : Option String} {cy cn : Val} {inp : Input}
    {nq : Val} {r : Input} {o : List String}
    (hcq : truthy cq = false)
    (h : make_new_q_node (.node cq ca cy cn) inp = (some nq, r, o)) :
    nq.truthyQ = true ∧ nq.complete = true ∧
    (Val.node cq ca cy cn) ∈ nq.leaves ∧ nq ≠ .pnone ∧
    newGuess inp ∈ nq.leaves := by
  obtain ⟨qs', b, hne, _, _, hres, _⟩ := make_new_q_node_ok h
  have ht : truthy (some qs') = true := by
    simp [truthy, hne]
  cases b
  · simp at hres
    subst hres
    refine ⟨ht, ?_, ?_, by simp, ?_⟩
    · rw [complete_truthy ht]
      simp [newGuess, Val.complete, hcq, truthy_none]
    · rw [leaves_truthy ht]
      simp [newGuess, Val.leaves, hcq, truthy_none]
    · rw [leaves_truthy ht]
      simp [newGuess, Val.leaves, hcq, truthy_none]
  · simp at hres
    subst hres
    refine ⟨ht, ?_, ?_, by simp, ?_⟩
    · rw [complete_truthy ht]
      simp [newGuess, Val.complete, hcq, truthy_none]
    · rw [leaves_truthy ht]
      simp [newGuess, Val.leaves, hcq, truthy_none]
    · rw [leaves_truthy ht]
      simp [newGuess, Val.leaves, hcq, truthy_none]


theorem play_node_spec_aux {qf a : Option String} {y n : Val}
    (child : Val) (flag : Bool)
    (hchild : child = if flag then y else n)
    (IH : ∀ inp, (∀ t' r o, play_q_node child inp = .err t' r o → t' = child) ∧
         (∀ t' r o, play_q_node child inp = .ok t' r o →
            sameTop child t' = true ∧
            (child.truthyQ = true → ∀ x ∈ child.leaves, x ∈ t'.leaves) ∧
            (child.complete = true → t'.complete = true)))
    (inp1 : Input) :
    (∀ u r o, play_node (.node qf a y n) child flag inp1 = .err u r o →
       u = .node qf a y n) ∧
    (∀ u r o, play_node (.node qf a y n) child flag inp1 = .ok u r o →
       sameTop (.node qf a y n) u = true ∧
       (truthy qf = true → ∀ x ∈ (Val.node qf a y n).leaves, x ∈ u.leaves) ∧
       ((Val.node qf a y n).complete = true → u.complete = true)) := by
  cases flag
  · simp only [if_neg (by simp : ¬(false = true))] at hchild
    subst hchild
    cases child with
    | pnone =>
      constructor
      · intro u r o h
        rw [play_node] at h
        simp at h
        exact h.1.symm
      · intro u r o h
        rw [play_node] at h
        simp at h
    | node cq ca cy cn =>
      cases hcq : truthy cq
      · -- guess child on the no-branch
        constructor
        · intro u r o h
          rw [play_node] at h
          simp only [hcq, Bool.false_eq_true, if_false, play_g_node,
            Val.getA, get_one_word_answer] at h
          cases ca with
          | none =>
            simp at h
            exact h.1.symm
          | some anm =>
            rcases hans2 : is_answer_affirmative
                (pyLower (pyStrip (readline inp1).1)) with _ | b2
            · rw [hans2] at h
              simp at h
              exact h.1.symm
            · rw [hans2] at h
              cases b2
              · simp only [insert_new_no_branch_q_node] at h
                rcases hmk : make_new_q_node (.node cq (some anm) cy cn)
                    ((readline inp1).2) with ⟨omk, i3, o3⟩
                rw [hmk] at h
                cases omk with
                | none =>
                  simp [PlayRes.prependOut] at h
                  exact h.1.symm
                | some nq =>
                  simp [PlayRes.prependOut, Val.setN] at h
              · simp [PlayRes.prependOut] at h
        · intro u r o h
          rw [play_node] at h
          simp only [hcq, Bool.false_eq_true, if_false, play_g_node,
            Val.getA, get_one_word_answer] at h
          cases ca with
          | none => simp at h
          | some anm =>
            rcases hans2 : is_answer_affirmative
                (pyLower (pyStrip (readline inp1).1)) with _ | b2
            · rw [hans2] at h
              simp at h
            · rw [hans2] at h
              cases b2
              · simp only [insert_new_no_branch_q_node] at h
                rcases hmk : make_new_q_node (.node cq (some anm) cy cn)
                    ((readline inp1).2) with ⟨omk, i3, o3⟩
                rw [hmk] at h
                cases omk with
                | none => simp [PlayRes.prependOut] at h
                | some nq =>
                  simp only [PlayRes.prependOut, Val.setN,
                    PlayRes.ok.injEq] at h
                  obtain ⟨hgt, hgc, hgm, hgp, hgm2⟩ := make_new_q_node_good hcq hmk
                  rw [← h.1]
                  refine ⟨by simp [sameTop], ?_, ?_⟩
                  · intro htq x hx
                    rw [leaves_truthy htq] at hx
                    rw [leaves_truthy htq]
                    rcases List.mem_append.1 hx with hx' | hx'
                    · exact List.mem_append.2 (Or.inl hx')
                    · rw [leaves_nontruthy hcq] at hx'
                      rw [List.mem_singleton.1 hx']
                      exact List.mem_append.2 (Or.inr hgm)
                  · intro hc
                    cases hq2 : truthy qf
                    · rw [complete_nontruthy hq2]
                    · rw [complete_truthy hq2] at hc
                      rw [complete_truthy hq2]
                      simp only [Bool.and_eq_true] at hc ⊢
                      exact ⟨⟨⟨hc.1.1.1, by simp [hgp]⟩, hc.1.2⟩, hgc⟩
              · simp only [PlayRes.prependOut, PlayRes.ok.injEq] at h
                rw [← h.1]
                refine ⟨by simp [sameTop], ?_, fun hc => hc⟩
                intro _ x hx
                exact hx
      · -- question child on the no-branch
        constructor
        · intro u r o h
          rw [play_node] at h
          simp only [hcq, if_true] at h
          rcases hres : play_q_node (.node cq ca cy cn) inp1
              with ⟨u2, r2, o2⟩ | ⟨u2, r2, o2⟩
          · rw [hres] at h
            simp at h
          · rw [hres] at h
            simp only [PlayRes.err.injEq] at h
            have h2 := (IH inp1).1 _ _ _ hres
            rw [← h.1, h2]
            simp [write_back]
        · intro u r o h
          rw [play_node] at h
          simp only [hcq, if_true] at h
          rcases hres : play_q_node (.node cq ca cy cn) inp1
              with ⟨u2, r2, o2⟩ | ⟨u2, r2, o2⟩
          · rw [hres] at h
            simp only [PlayRes.ok.injEq] at h
            obtain ⟨hst, hlv, hcp⟩ := (IH inp1).2 _ _ _ hres
            obtain ⟨cy', cn', hu2⟩ := sameTop_node_iff.1 hst
            rw [← h.1]
            simp only [write_back, if_neg (by simp : ¬(false = true))]
            refine ⟨by simp [sameTop], ?_, ?_⟩
            · intro htq x hx
              rw [leaves_truthy htq] at hx
              rw [leaves_truthy htq]
              rcases List.mem_append.1 hx with hx' | hx'
              · exact List.mem_append.2 (Or.inl hx')
              · exact List.mem_append.2 (Or.inr (hlv (by simp [Val.truthyQ, hcq]) x hx'))
            · intro hc
              cases hq2 : truthy qf
              · rw [complete_nontruthy hq2]
              · rw [complete_truthy hq2] at hc
                rw [complete_truthy hq2]
                simp only [Bool.and_eq_true] at hc ⊢
                refine ⟨⟨⟨hc.1.1.1, ?_⟩, hc.1.2⟩, hcp hc.2⟩
                rw [hu2]
                simp
          · rw [hres] at h
            simp at h
  · simp only [if_pos rfl] at hchild
    subst hchild
    cases child with
    | pnone =>
      constructor
      · intro u r o h
        rw [play_node] at h
        simp at h
        exact h.1.symm
      · intro u r o h
        rw [play_node] at h
        simp at h
    | node cq ca cy cn =>
      cases hcq : truthy cq
      · -- guess child on the yes-branch
        constructor
        · intro u r o h
          rw [play_node] at h
          simp only [hcq, Bool.false_eq_true, if_false, play_g_node,
            Val.getA, get_one_word_answer] at h
          cases ca with
          | none =>
            simp at h
            exact h.1.symm
          | some anm =>
            rcases hans2 : is_answer_affirmative
                (pyLower (pyStrip (readline inp1).1)) with _ | b2
            · rw [hans2] at h
              simp at h
              exact h.1.symm
            · rw [hans2] at h
              cases b2
              · simp only [if_true, insert_new_yes_branch_q_node] at h
                rcases hmk : make_new_q_node (.node cq (some anm) cy cn)
                    ((readline inp1).2) with ⟨omk, i3, o3⟩
                rw [hmk] at h
                cases omk with
                | none =>
                  simp [PlayRes.prependOut] at h
                  exact h.1.symm
                | some nq =>
                  simp [PlayRes.prependOut, Val.setY] at h
              · simp [PlayRes.prependOut] at h
        · intro u r o h
          rw [play_node] at h
          simp only [hcq, Bool.false_eq_true, if_false, play_g_node,
            Val.getA, get_one_word_answer] at h
          cases ca with
          | none => simp at h
          | some anm =>
            rcases hans2 : is_answer_affirmative
                (pyLower (pyStrip (readline inp1).1)) with _ | b2
            · rw [hans2] at h
              simp at h
            · rw [hans2] at h
              cases b2
              · simp only [if_true, insert_new_yes_branch_q_node] at h
                rcases hmk : make_new_q_node (.node cq (some anm) cy cn)
                    ((readline inp1).2) with ⟨omk, i3, o3⟩
                rw [hmk] at h
                cases omk with
                | none => simp [PlayRes.prependOut] at h
                | some nq =>
                  simp only [PlayRes.prependOut, Val.setY,
                    PlayRes.ok.injEq] at h
                  obtain ⟨hgt, hgc, hgm, hgp, hgm2⟩ := make_new_q_node_good hcq hmk
                  rw [← h.1]
                  refine ⟨by simp [sameTop], ?_, ?_⟩
                  · intro htq x hx
                    rw [leaves_truthy htq] at hx
                    rw [leaves_truthy htq]
                    rcases List.mem_append.1 hx with hx' | hx'
                    · rw [leaves_nontruthy hcq] at hx'
                      rw [List.mem_singleton.1 hx']
                      exact List.mem_append.2 (Or.inl hgm)
                    · exact List.mem_append.2 (Or.inr hx')
                  · intro hc
                    cases hq2 : truthy qf
                    · rw [complete_nontruthy hq2]
                    · rw [complete_truthy hq2] at hc
                      rw [complete_truthy hq2]
                      simp only [Bool.and_eq_true] at hc ⊢
                      exact ⟨⟨⟨by simp [hgp], hc.1.1.2⟩, hgc⟩, hc.2⟩
              · simp only [PlayRes.prependOut, PlayRes.ok.injEq] at h
                rw [← h.1]
                refine ⟨by simp [sameTop], ?_, fun hc => hc⟩
                intro _ x hx
                exact hx
      · -- question child on the yes-branch
        constructor
        · intro u r o h
          rw [play_node] at h
          simp only [hcq, if_true] at h
          rcases hres : play_q_node (.node cq ca cy cn) inp1
              with ⟨u2, r2, o2⟩ | ⟨u2, r2, o2⟩
          · rw [hres] at h
            simp at h
          · rw [hres] at h
            simp only [PlayRes.err.injEq] at h
            have h2 := (IH inp1).1 _ _ _ hres
            rw [← h.1, h2]
            simp [write_back]
        · intro u r o h
          rw [play_node] at h
          simp only [hcq, if_true] at h
          rcases hres : play_q_node (.node cq ca cy cn) inp1
              with ⟨u2, r2, o2⟩ | ⟨u2, r2, o2⟩
          · rw [hres] at h
            simp only [PlayRes.ok.injEq] at h
            obtain ⟨hst, hlv, hcp⟩ := (IH inp1).2 _ _ _ hres
            obtain ⟨cy', cn', hu2⟩ := sameTop_node_iff.1 hst
            have hwb : write_back (Val.node qf a (Val.node cq ca cy cn) n) u2 true
                = Val.node qf a u2 n := by
              simp [write_back]
            rw [← h.1, hwb]
            refine ⟨by simp [sameTop], ?_, ?_⟩
            · intro htq x hx
              rw [leaves_truthy htq] at hx
              rw [leaves_truthy htq]
              rcases List.mem_append.1 hx with hx' | hx'
              · exact List.mem_append.2
                  (Or.inl (hlv (by simp [Val.truthyQ, hcq]) x hx'))
              · exact List.mem_append.2 (Or.inr hx')
            · intro hc
              cases hq2 : truthy qf
              · rw [complete_nontruthy hq2]
              · rw [complete_truthy hq2] at hc
                rw [complete_truthy hq2]
                simp only [Bool.and_eq_true] at hc ⊢
                refine ⟨⟨⟨?_, hc.1.1.2⟩, hcp hc.1.2⟩, hc.2⟩
                rw [hu2]
                simp
          · rw [hres] at h
            simp at h

theorem play_q_node_spec (t : Val) : ∀ (inp : Input),
    (∀ t' r o, play_q_node t inp = PlayRes.err t' r o → t' = t) ∧
    (∀ t' r o, play_q_node t inp = PlayRes.ok t' r o →
      sameTop t t' = true ∧
      (t.truthyQ = true → ∀ x ∈ t.leaves, x ∈ t'.leaves) ∧
      (t.complete = true → t'.complete = true)) := by
  induction t with
  | pnone =>
    intro inp
    constructor
    · intro t' r o h
      rw [play_q_node] at h
      simp at h
      exact h.1.symm
    · intro t' r o h
      rw [play_q_node] at h
      simp at h
  | node qf a y n ihy ihn =>
    intro inp
    cases qf with
    | none =>
      constructor
      · intro t' r o h
        rw [play_q_node] at h
        simp at h
        exact h.1.symm
      · intro t' r o h
        rw [play_q_node] at h
        simp at h
    | some qs =>
      have hy := @play_node_spec_aux (some qs) a y n y true rfl ihy
      have hn := @play_node_spec_aux (some qs) a y n n false rfl ihn
      constructor
      · intro t' r o h
        rw [play_q_node] at h
        simp only [get_one_word_answer] at h
        rcases hans : is_answer_affirmative (pyLower (pyStrip (readline inp).1))
            with _ | b
        · simp only [hans] at h
          simp at h
          exact h.1.symm
        · simp only [hans] at h
          cases b
          · rcases hpn : play_node (.node (some qs) a y n) n false ((readline inp).2)
                with ⟨u3, r3, o3⟩ | ⟨u3, r3, o3⟩
            · rw [hpn] at h
              simp [PlayRes.prependOut] at h
            · rw [hpn] at h
              simp only [PlayRes.prependOut, PlayRes.err.injEq] at h
              rw [← h.1]
              exact (hn ((readline inp).2)).1 _ _ _ hpn
          · rcases hpn : play_node (.node (some qs) a y n) y true ((readline inp).2)
                with ⟨u3, r3, o3⟩ | ⟨u3, r3, o3⟩
            · rw [hpn] at h
              simp [PlayRes.prependOut] at h
            · rw [hpn] at h
              simp only [PlayRes.prependOut, PlayRes.err.injEq] at h
              rw [← h.1]
              exact (hy ((readline inp).2)).1 _ _ _ hpn
      · intro t' r o h
        rw [play_q_node] at h
        simp only [get_one_word_answer] at h
        rcases hans : is_answer_affirmative (pyLower (pyStrip (readline inp).1))
            with _ | b
        · simp only [hans] at h
          simp at h
        · simp only [hans] at h
          cases b
          · rcases hpn : play_node (.node (some qs) a y n) n false ((readline inp).2)
                with ⟨u3, r3, o3⟩ | ⟨u3, r3, o3⟩
            · rw [hpn] at h
              simp only [PlayRes.prependOut, PlayRes.ok.injEq] at h
              rw [← h.1]
              exact (hn ((readline inp).2)).2 _ _ _ hpn
            · rw [hpn] at h
              simp [PlayRes.prependOut] at h
          · rcases hpn : play_node (.node (some qs) a y n) y true ((readline inp).2)
                with ⟨u3, r3, o3⟩ | ⟨u3, r3, o3⟩
            · rw [hpn] at h
              simp only [PlayRes.prependOut, PlayRes.ok.injEq] at h
              rw [← h.1]
              exact (hy ((readline inp).2)).2 _ _ _ hpn
            · rw [hpn] at h
              simp [PlayRes.prependOut] at h

/-! ### C6: yes/no answer semantics -/

/-- C6 counterexample: an empty input line is not "treated as a normal
low-information answer": `get_one_word_answer` yields `""` and
`is_answer_affirmative` then raises an IndexError (modelled `none`), so the
empty line is an error, contrary to the claim. -/
theorem empty_answer_error :
    (get_one_word_answer [""]).1 = "" ∧
    is_answer_affirmative (get_one_word_answer [""]).1 = none := by
  decide

/-- C6 (amended): for every line read in answer to a yes/no ask whose
trimmed, lowercased text is non-empty, the answer counts as affirmative iff
the first character of that text is `'y'`; an empty line, however, raises an
uncaught IndexError (modelled `none`) instead of counting as a normal
answer. -/
theorem yes_no_answer_semantics (l : String) (ls : Input)
    (h : pyLower (pyStrip l) ≠ "") :
    ∃ c cs, (pyLower (pyStrip l)).data = c :: cs ∧
      (get_one_word_answer (l :: ls)).1 = pyLower (pyStrip l) ∧
      is_answer_affirmative (get_one_word_answer (l :: ls)).1
        = some (c == 'y') := by
  rcases hd : (pyLower (pyStrip l)).data with _ | ⟨c, cs⟩
  · exact absurd (string_eq_empty_of_data_nil hd) h
  · refine ⟨c, cs, rfl, rfl, ?_⟩
    show is_answer_affirmative (pyLower (pyStrip l)) = some (c == 'y')
    simp only [is_answer_affirmative, hd]

/-- C6 witness: the amended theorem applied to the line `" YES "`. -/
theorem yes_no_answer_semantics_witness :
    ∃ c cs, (pyLower (pyStrip " YES ")).data = c :: cs ∧
      (get_one_word_answer [" YES "]).1 = pyLower (pyStrip " YES ") ∧
      is_answer_affirmative (get_one_word_answer [" YES "]).1
        = some (c == 'y') :=
  yes_no_answer_semantics " YES " [] (by decide)

/-! ### C7: question normalization -/

/-- C7 counterexample: the stored question does not always end with exactly
one `'?'`: raw input `"x??"` is stored as `"X??"`, whose last two characters
are both `'?'`; moreover an empty raw line is an IndexError, not a stored
question. -/
theorem question_mark_duplication :
    (get_question ["x??"]).1 = some "X??" ∧
    "X??".data.getLast? = some '?' ∧
    "X??".data.dropLast.getLast? = some '?' ∧
    (get_question [""]).1 = none := by
  decide

/-- C7 (amended): for every raw question line whose stripped text is
non-empty, the stored question is the lowercased-then-first-letter-capitalized
text, with `'?'` appended exactly when its last character is not already
`'?'`; hence it always ends with `'?'`, and a text already ending in `'?'` is
stored unchanged (so pre-existing repeated trailing question marks are kept).
The spec's two boundary examples hold. -/
theorem question_normalization (l : String) (ls : Input)
    (h : pyStrip l ≠ "") :
    (∃ q, (get_question (l :: ls)).1 = some q ∧
      q.data.getLast? = some '?' ∧
      ((pyCapitalize (pyLower (pyStrip l))).data.getLast? = some '?' →
        q = pyCapitalize (pyLower (pyStrip l))) ∧
      ((pyCapitalize (pyLower (pyStrip l))).data.getLast? ≠ some '?' →
        q = pyCapitalize (pyLower (pyStrip l)) ++ "?")) ∧
    (get_question ["does it have stripes"]).1 = some "Does it have stripes?" ∧
    (get_question ["Does it fly?"]).1 = some "Does it fly?" := by
  refine ⟨?_, by decide, by decide⟩
  have key : get_question (l :: ls)
      = (match (pyCapitalize (pyLower (pyStrip l))).data.getLast? with
         | none => (none, ls)
         | some c => if c ≠ '?'
             then (some (pyCapitalize (pyLower (pyStrip l)) ++ "?"), ls)
             else (some (pyCapitalize (pyLower (pyStrip l))), ls)) := rfl
  have hnil := pyCapitalize_pyLower_ne_nil h
  rcases hc0 : (pyCapitalize (pyLower (pyStrip l))).data.getLast? with _ | c0
  · exact absurd (List.getLast?_eq_none_iff.1 hc0) hnil
  · by_cases hq : c0 = '?'
    · refine ⟨pyCapitalize (pyLower (pyStrip l)), ?_, hq ▸ hc0, fun _ => rfl, ?_⟩
      · rw [key]
        simp [hc0, hq]
      · intro hne
        exact absurd (congrArg some hq) hne
    · refine ⟨pyCapitalize (pyLower (pyStrip l)) ++ "?", ?_, ?_, ?_, fun _ => rfl⟩
      · rw [key]
        simp [hc0, hq]
      · rw [String.data_append]
        exact List.getLast?_concat _
      · intro h1
        exact absurd (Option.some.inj h1) hq

/-- C7 witness: the amended theorem applied to the line `"does it have stripes"`. -/
theorem question_normalization_witness :
    (∃ q, (get_question ["does it have stripes"]).1 = some q ∧
      q.data.getLast? = some '?' ∧
      ((pyCapitalize (pyLower (pyStrip "does it have stripes"))).data.getLast? = some '?' →
        q = pyCapitalize (pyLower (pyStrip "does it have stripes"))) ∧
      ((pyCapitalize (pyLower (pyStrip "does it have stripes"))).data.getLast? ≠ some '?' →
        q = pyCapitalize (pyLower (pyStrip "does it have stripes")) ++ "?")) ∧
    (get_question ["does it have stripes"]).1 = some "Does it have stripes?" ∧
    (get_question ["Does it fly?"]).1 = some "Does it fly?" :=
  question_normalization "does it have stripes" [] (by decide)

/-! ### C8: trace output format -/

/-- C8: the Trace Walker at depth 1 on the unmodified seed tree emits exactly
these four lines in this order, with indentation of three spaces per depth
level and the question re-emitted before each branch. -/
theorem trace_output_seed_tree :
    print_game_tree q_node_root 1 =
      some ["   Question: Does it swim? -> yes:",
            "      Guess: a fish",
            "   Question: Does it swim? -> no:",
            "      Guess: a bird"] := by
  decide

/-! ### C9: straight-through correct guess leaves the tree unchanged -/

/-- C9: on the seed tree, a round answered "yes" then "yes" prints the root
question, `Is it a fish?` and `Great! Try another animal!`, consumes exactly
the two lines, and returns the tree unchanged. -/
theorem straight_through_correct_guess :
    play_q_node q_node_root ["yes", "yes"] =
      .ok q_node_root []
        ["Does it swim?", "Is it a fish?", "Great! Try another animal!"] := by
  have h1 : get_one_word_answer ["yes", "yes"] = ("yes", ["yes"]) := by decide
  have h2 : get_one_word_answer ["yes"] = ("yes", []) := by decide
  have h3 : is_answer_affirmative "yes" = some true := by decide
  simp [play_q_node, play_node, play_g_node, q_node_root, g_node_fish,
    g_node_bird, h1, h2, h3, truthy, Val.getA, PlayRes.prependOut]

/-! ### C10: stored question text is fully case-folded -/

/-- C10: whenever a raw question line is successfully stored, the stored
text's first character is the uppercased image of the (lowercased) first
input character, and no character after the first is uppercase — interior
uppercase letters of the typed question are not preserved. -/
theorem stored_question_case_folded (l : String) (ls : Input) (q : String)
    (h : (get_question (l :: ls)).1 = some q) :
    q.data.head? = ((pyLower (pyStrip l)).data.head?.map Char.toUpper) ∧
    ∀ c ∈ q.data.tail, c.isUpper = false := by
  obtain ⟨c, cs, hd, _, himp1, himp2⟩ := get_question_ok h
  have hcap := pyCapitalize_pyLower_data hd
  have hlow : (pyLower (pyStrip l)).data
      = c.toLower :: cs.map Char.toLower := by
    simp [pyLower, hd]
  by_cases hq : (pyCapitalize (pyLower (pyStrip l))).data.getLast? = some '?'
  · have hqe := himp1 hq
    subst hqe
    constructor
    · rw [hcap, hlow]
      simp
    · intro x hx
      rw [hcap] at hx
      simp only [List.tail_cons] at hx
      obtain ⟨b, _, rfl⟩ := List.mem_map.1 hx
      exact toLower_isUpper_false b
  · have hqe := himp2 hq
    subst hqe
    have hdata : (pyCapitalize (pyLower (pyStrip l)) ++ "?").data
        = c.toLower.toUpper
          :: ((cs.map Char.toLower).map Char.toLower ++ ['?']) := by
      rw [String.data_append, hcap]
      rfl
    constructor
    · rw [hdata, hlow]
      simp
    · intro x hx
      rw [hdata] at hx
      simp only [List.tail_cons] at hx
      rcases List.mem_append.1 hx with hx' | hx'
      · obtain ⟨b, _, rfl⟩ := List.mem_map.1 hx'
        exact toLower_isUpper_false b
      · rw [List.mem_singleton.1 hx']
        decide

/-- C10 witness: the theorem applied to the line `"Does it fly to the USA"`,
which is stored as `"Does it fly to the usa?"`. -/
theorem stored_question_case_folded_witness :
    "Does it fly to the usa?".data.head?
        = ((pyLower (pyStrip "Does it fly to the USA")).data.head?.map Char.toUpper) ∧
    ∀ c ∈ "Does it fly to the usa?".data.tail, c.isUpper = false :=
  stored_question_case_folded "Does it fly to the USA" []
    "Does it fly to the usa?" (by decide)

theorem readline_snd (inp : Input) : (readline inp).2 = inp.drop 1 := by
  cases inp <;> simp [readline]

/-- One round (completed or aborted by an exception) keeps the top node's
`'Q'` and `'A'` entries. -/
theorem run_round_top (qf a : Option String) (y n : Val) (inp : Input) :
    ∃ y' n', run_round (.node qf a y n) inp = .node qf a y' n' := by
  unfold run_round play_game
  rcases hres : play_q_node (.node qf a y n) inp
      with ⟨u, r, o⟩ | ⟨u, r, o⟩
  · obtain ⟨hst, _, _⟩ := (play_q_node_spec _ inp).2 _ _ _ hres
    obtain ⟨y', n', hu⟩ := sameTop_node_iff.1 hst
    exact ⟨y', n', by rw [hu]⟩
  · have hu := (play_q_node_spec _ inp).1 _ _ _ hres
    exact ⟨y, n, hu⟩

/-- Any number of rounds keeps the top node's `'Q'` and `'A'` entries. -/
theorem run_rounds_top (qf a : Option String) :
    ∀ (scripts : List Input) (y n : Val),
      ∃ y' n', run_rounds (.node qf a y n) scripts = .node qf a y' n' := by
  intro scripts
  induction scripts with
  | nil => exact fun y n => ⟨y, n, rfl⟩
  | cons s ss ih =>
    intro y n
    obtain ⟨y1, n1, h1⟩ := run_round_top qf a y n s
    obtain ⟨y2, n2, h2⟩ := ih y1 n1
    refine ⟨y2, n2, ?_⟩
    show run_rounds (run_round (.node qf a y n) s) ss = _
    rw [h1, h2]

/-! ### C2: information preservation -/

/-- C2: after any completed miss-driven growth event, the pre-existing guess
node and the newly created guess node are both leaves of the question node
spliced into the parent's slot (yes- or no-branch alike); moreover any
completed round can only enlarge the set of tree leaves, so no pre-existing
leaf is ever discarded. -/
theorem information_preservation :
    (∀ (q_node g_node : Val) (inp : Input) (t' : Val) (r : Input)
        (o : List String),
      g_node.isGuess = true →
      insert_new_yes_branch_q_node q_node g_node inp = PlayRes.ok t' r o →
      ∃ nq, t'.getY = some nq ∧ g_node ∈ nq.leaves ∧ newGuess inp ∈ nq.leaves) ∧
    (∀ (q_node g_node : Val) (inp : Input) (t' : Val) (r : Input)
        (o : List String),
      g_node.isGuess = true →
      insert_new_no_branch_q_node q_node g_node inp = PlayRes.ok t' r o →
      ∃ nq, t'.getN = some nq ∧ g_node ∈ nq.leaves ∧ newGuess inp ∈ nq.leaves) ∧
    (∀ (t : Val) (inp : Input) (t' : Val) (r : Input) (o : List String),
      t.truthyQ = true → play_q_node t inp = PlayRes.ok t' r o →
      ∀ x ∈ t.leaves, x ∈ t'.leaves) := by
  refine ⟨?_, ?_, ?_⟩
  · intro q_node g_node inp t' r o hg h
    cases g_node with
    | pnone => simp [Val.isGuess] at hg
    | node cq ca cy cn =>
      have hcq : truthy cq = false := by
        simpa [Val.isGuess] using hg
      simp only [insert_new_yes_branch_q_node] at h
      rcases hmk : make_new_q_node (.node cq ca cy cn) inp with ⟨omk, i3, o3⟩
      rw [hmk] at h
      cases omk with
      | none => simp at h
      | some nq =>
        obtain ⟨_, _, hgm, _, hgm2⟩ := make_new_q_node_good hcq hmk
        cases q_node with
        | pnone => simp [Val.setY] at h
        | node pq pa py pn =>
          simp only [Val.setY, PlayRes.ok.injEq] at h
          exact ⟨nq, by rw [← h.1]; rfl, hgm, hgm2⟩
  · intro q_node g_node inp t' r o hg h
    cases g_node with
    | pnone => simp [Val.isGuess] at hg
    | node cq ca cy cn =>
      have hcq : truthy cq = false := by
        simpa [Val.isGuess] using hg
      simp only [insert_new_no_branch_q_node] at h
      rcases hmk : make_new_q_node (.node cq ca cy cn) inp with ⟨omk, i3, o3⟩
      rw [hmk] at h
      cases omk with
      | none => simp at h
      | some nq =>
        obtain ⟨_, _, hgm, _, hgm2⟩ := make_new_q_node_good hcq hmk
        cases q_node with
        | pnone => simp [Val.setN] at h
        | node pq pa py pn =>
          simp only [Val.setN, PlayRes.ok.injEq] at h
          exact ⟨nq, by rw [← h.1]; rfl, hgm, hgm2⟩
  · intro t inp t' r o ht h
    exact ((play_q_node_spec t inp).2 _ _ _ h).2.1 ht

/-- C2 witness: the yes-branch part applied to the seed parent, the wrong
guess `"a fish"`, and the growth script for `"a shark"`. -/
theorem information_preservation_witness :
    ∃ nq, (Val.node (some "Does it swim?") none
        (.node (some "Does it have fins?") none
          (.node none (some "a shark") .pnone .pnone) g_node_fish)
        g_node_bird).getY = some nq ∧
      g_node_fish ∈ nq.leaves ∧
      newGuess ["a shark", "Does it have fins?", "yes"] ∈ nq.leaves :=
  information_preservation.1 q_node_root g_node_fish
    ["a shark", "Does it have fins?", "yes"]
    (Val.node (some "Does it swim?") none
      (.node (some "Does it have fins?") none
        (.node none (some "a shark") .pnone .pnone) g_node_fish)
      g_node_bird)
    []
    ["What animal were you thinking of? ",
     "Please type a yes-or-no question that would distinguish a shark from a fish:",
     "For a shark, what is the answer?"]
    (by decide) (by decide)

/-! ### C3: root stability -/

/-- C3: for any number of game rounds — completed or aborted — starting from
any question node (in particular the seed root), the resulting tree is still
a question node with the same question text and the same `'A'` entry; only
the two child slots can change.  No operation replaces or removes the root. -/
theorem root_stability :
    (∀ (q : String) (a : Option String) (y n : Val) (scripts : List Input),
      ∃ y' n', run_rounds (.node (some q) a y n) scripts
        = .node (some q) a y' n') ∧
    (∀ scripts : List Input, ∃ y' n',
      run_rounds q_node_root scripts = .node (some "Does it swim?") none y' n') := by
  constructor
  · intro q a y n scripts
    exact run_rounds_top (some q) a scripts y n
  · intro scripts
    exact run_rounds_top (some "Does it swim?") none scripts g_node_fish g_node_bird

/-! ### C4: binary-ness and atomic construction -/

/-- C4 counterexample: `make_q_node_with_q_only` does create a QuestionNode
with missing children — both its `'Y'` and `'N'` entries are `None` — so the
construction is not atomic; the node even fails the completeness predicate. -/
theorem incomplete_q_node_created :
    (make_q_node_with_q_only "a shark" "a fish" ["does it have fins"]).1
      = some (.node (some "Does it have fins?") none .pnone .pnone) ∧
    (Val.node (some "Does it have fins?") none .pnone .pnone).complete = false := by
  decide

/-- C4 (amended): in every reachable tree state every question node has both
children set: the seed tree is complete, and one traversal step — whether it
returns normally or dies on an exception — preserves completeness.  However,
`make_q_node_with_q_only` does first create a question node whose two child
slots are `None`; it is wired to its children by `attach_g_nodes` before the
parent's slot is redirected to it, so an incomplete node is never reachable. -/
theorem reachable_tree_completeness :
    q_node_root.complete = true ∧
    (∀ (t : Val) (inp : Input) (t' : Val) (r : Input) (o : List String),
      t.complete = true →
      (play_q_node t inp = PlayRes.ok t' r o ∨
        play_q_node t inp = PlayRes.err t' r o) →
      t'.complete = true) := by
  refine ⟨by decide, ?_⟩
  intro t inp t' r o hc h
  rcases h with h | h
  · exact ((play_q_node_spec t inp).2 _ _ _ h).2.2 hc
  · rw [(play_q_node_spec t inp).1 _ _ _ h]
    exact hc

/-- C4 witness: the amended preservation applied to the seed tree and the
round that grows the yes-branch with `"a shark"`. -/
theorem reachable_tree_completeness_witness :
    (Val.node (some "Does it swim?") none
      (.node (some "Does it have fins?") none
        (.node none (some "a shark") .pnone .pnone) g_node_fish)
      g_node_bird).complete = true :=
  reachable_tree_completeness.2 q_node_root
    ["yes", "no", "a shark", "Does it have fins?", "yes"]
    (Val.node (some "Does it swim?") none
      (.node (some "Does it have fins?") none
        (.node none (some "a shark") .pnone .pnone) g_node_fish)
      g_node_bird)
    [] ["Does it swim?", "Is it a fish?",
        "What animal were you thinking of? ",
        "Please type a yes-or-no question that would distinguish a shark from a fish:",
        "For a shark, what is the answer?"]
    (by decide)
    (Or.inl (by
      have h1 : get_one_word_answer ["yes", "no", "a shark", "Does it have fins?", "yes"]
          = ("yes", ["no", "a shark", "Does it have fins?", "yes"]) := by decide
      have h2 : is_answer_affirmative "yes" = some true := by decide
      have h3 : get_one_word_answer ["no", "a shark", "Does it have fins?", "yes"]
          = ("no", ["a shark", "Does it have fins?", "yes"]) := by decide
      have h4 : is_answer_affirmative "no" = some false := by decide
      have h5 : insert_new_yes_branch_q_node
          (Val.node (some "Does it swim?") none
            (Val.node none (some "a fish") Val.pnone Val.pnone)
            (Val.node none (some "a bird") Val.pnone Val.pnone))
          (Val.node none (some "a fish") Val.pnone Val.pnone)
          ["a shark", "Does it have fins?", "yes"]
        = .ok (.node (some "Does it swim?") none
            (.node (some "Does it have fins?") none
              (.node none (some "a shark") .pnone .pnone)
              (.node none (some "a fish") .pnone .pnone))
            (.node none (some "a bird") .pnone .pnone))
          []
          ["What animal were you thinking of? ",
           "Please type a yes-or-no question that would distinguish a shark from a fish:",
           "For a shark, what is the answer?"] := by decide
      simp [play_q_node, play_node, play_g_node, q_node_root, g_node_fish,
        g_node_bird, h1, h2, h3, h4, h5, truthy, Val.getA, PlayRes.prependOut]))

/-! ### C5: error atomicity -/

/-- C5: if any input operation fails mid-round (uncaught exception), the tree
reachable from the node the round started at is exactly the tree it started
with — the single splice assignment runs only after all three growth inputs
have been collected, as witnessed by a successful splice consuming exactly
three input lines. -/
theorem error_atomicity :
    (∀ (t : Val) (inp : Input) (t' : Val) (r : Input) (o : List String),
      play_q_node t inp = PlayRes.err t' r o → t' = t) ∧
    (∀ (q_node g_node : Val) (inp : Input) (t' : Val) (r : Input)
        (o : List String),
      insert_new_yes_branch_q_node q_node g_node inp = PlayRes.ok t' r o →
      r = inp.drop 3) ∧
    (∀ (q_node g_node : Val) (inp : Input) (t' : Val) (r : Input)
        (o : List String),
      insert_new_no_branch_q_node q_node g_node inp = PlayRes.ok t' r o →
      r = inp.drop 3) := by
  refine ⟨?_, ?_, ?_⟩
  · intro t inp t' r o h
    exact (play_q_node_spec t inp).1 _ _ _ h
  · intro q_node g_node inp t' r o h
    simp only [insert_new_yes_branch_q_node] at h
    rcases hmk : make_new_q_node g_node inp with ⟨omk, i3, o3⟩
    rw [hmk] at h
    cases omk with
    | none => simp at h
    | some nq =>
      obtain ⟨_, _, _, _, _, _, hr⟩ := make_new_q_node_ok hmk
      cases q_node with
      | pnone => simp [Val.setY] at h
      | node pq pa py pn =>
        simp only [Val.setY, PlayRes.ok.injEq] at h
        rw [← h.2.1, hr]
        simp [readline_snd, List.drop_drop]
  · intro q_node g_node inp t' r o h
    simp only [insert_new_no_branch_q_node] at h
    rcases hmk : make_new_q_node g_node inp with ⟨omk, i3, o3⟩
    rw [hmk] at h
    cases omk with
    | none => simp at h
    | some nq =>
      obtain ⟨_, _, _, _, _, _, hr⟩ := make_new_q_node_ok hmk
      cases q_node with
      | pnone => simp [Val.setN] at h
      | node pq pa py pn =>
        simp only [Val.setN, PlayRes.ok.injEq] at h
        rw [← h.2.1, hr]
        simp [readline_snd, List.drop_drop]

/-- C5 witness: a round on the seed tree that dies on an empty answer line
leaves the tree untouched, and a successful splice consumes three lines. -/
theorem error_atomicity_witness :
    q_node_root = q_node_root ∧
    ([] : Input) = (["a shark", "Does it have fins?", "yes"] : Input).drop 3 :=
  ⟨error_atomicity.1 q_node_root ["no", ""] q_node_root []
      ["Does it swim?", "Is it a bird?"]
      (by
        have h1 : get_one_word_answer ["no", ""] = ("no", [""]) := by decide
        have h2 : is_answer_affirmative "no" = some false := by decide
        have h3 : get_one_word_answer [""] = ("", []) := by decide
        have h4 : is_answer_affirmative "" = none := by decide
        simp [play_q_node, play_node, play_g_node, q_node_root, g_node_fish,
          g_node_bird, h1, h2, h3, h4, truthy, Val.getA, PlayRes.prependOut]),
   error_atomicity.2.1 q_node_root g_node_fish
      ["a shark", "Does it have fins?", "yes"]
      (Val.node (some "Does it swim?") none
        (.node (some "Does it have fins?") none
          (.node none (some "a shark") .pnone .pnone) g_node_fish)
        g_node_bird)
      []
      ["What animal were you thinking of? ",
       "Please type a yes-or-no question that would distinguish a shark from a fish:",
       "For a shark, what is the answer?"]
      (by decide)⟩

end Animal
